import Mathlib

/-!
Shallow embedding of the ColorVM interpreter (src/colorvm.py) and proofs
about the claims of its specification.

Modelling conventions:
 - Python unbounded ints are `Int`; stack heads are the Python list tails
   (the Lean list head is the top of the stack, i.e. the last Python
   element, the one `pop()` removes).
 - An uncaught Python exception (IndexError, ZeroDivisionError,
   ValueError, EOFError) aborts the whole interpreter process; it is
   modelled by `Except.error`, while a normal step yields `Except.ok`.
 - Standard input is a list of lines, each a list of character code
   points; `inc`/`ini` consume one line.
 - Console output has no effect on VM state and is not modelled.
 - Three ghost counters (`gConsume`, `gSuspend`, `gHead`) track how often
   the three distinct `waita`-counting sites of the source fire; they are
   write-only and never influence execution.
-/

inductive Color
  | r | g | b
  deriving DecidableEq

/-- VM operating states of src/colorvm.py (LOADING..OVERRUN). -/
inductive TState
  | loading | running | await | halted | overrun
  deriving DecidableEq

/-- Mnemonics of the per-channel statistics table `colorstat` (the Python
keys "not", "or", "and" are Lean keywords and appear as bnot/bor/band). -/
inductive OpName
  | push | add | sub | mul | div | rem | pop | swap | dup | rot
  | bnot | bor | band | gt | eq | lt | nop | halt | jmpz | jmpnz
  | outc | inc | outi | ini | pusha | waita | neg | shl | shr
  deriving DecidableEq

/-- Uncaught Python exceptions that abort the whole interpreter. -/
inductive VMErr
  | indexError | zeroDivisionError | valueError | eofError
  deriving DecidableEq

/-- The mutable interpreter state: `colorstack` (r,g,b and the shared
alpha stack), `colorstate`, `colorip`, `colorstat`, `waitstack`, plus the
modelled stdin and the ghost counters. -/
structure VMState where
  stack : Color → List Int
  astack : List Int
  tstate : Color → TState
  ip : Color → Int
  stat : Color → OpName → Nat
  waitq : List Color
  input : List (List Nat)
  gConsume : Color → Nat
  gSuspend : Color → Nat
  gHead : Color → Nat

/-- Pointwise update of a per-channel map. -/
def updC {α : Type} (f : Color → α) (c : Color) (v : α) : Color → α :=
  fun x => if x = c then v else f x

/-- Increment of a per-channel ghost counter. -/
def bumpN (f : Color → Nat) (c : Color) : Color → Nat :=
  fun x => if x = c then f x + 1 else f x

/-- Increment of one entry of the statistics table. -/
def bumpStatF (f : Color → OpName → Nat) (c : Color) (o : OpName) : Color → OpName → Nat :=
  fun x k => if x = c ∧ k = o then f x k + 1 else f x k

def bumpStat1 (s : VMState) (c : Color) (o : OpName) : VMState :=
  { s with stat := bumpStatF s.stat c o }

def setStack (s : VMState) (c : Color) (l : List Int) : VMState :=
  { s with stack := updC s.stack c l }

def pushV (s : VMState) (c : Color) (v : Int) : VMState :=
  setStack s c (v :: s.stack c)

/-- Python list indexing `l[i]`: negative indices wrap once, anything out
of range raises IndexError. -/
def pyGet (l : List Nat) (i : Int) : Except VMErr Nat :=
  if 0 ≤ i ∧ i < (l.length : Int) then Except.ok (l.getD i.toNat 0)
  else if -(l.length : Int) ≤ i ∧ i < 0 then Except.ok (l.getD (i + l.length).toNat 0)
  else Except.error VMErr.indexError

/-- Python `list.insert(i, v)` on a stack whose Lean head is the Python
last element: the Python index `i` counts from the bottom, negative
indices count from the end, and both directions clamp into range. -/
def pyInsertTop (l : List Int) (i : Int) (v : Int) : List Int :=
  let n := l.length
  let k : Nat := if i < 0 then ((n : Int) + i).toNat else min i.toNat n
  List.take (n - k) l ++ v :: List.drop (n - k) l

/-- Python `str.isdecimal` restricted to ASCII digit lines, as used by
the `ini` opcode. -/
def isDecimalLine (line : List Nat) : Bool :=
  (decide (line ≠ [])) && line.all (fun d => decide (48 ≤ d ∧ d ≤ 57))

/-- Numeric value of a decimal digit line, Python `int(value)`. -/
def decimalVal (line : List Nat) : Nat :=
  line.foldl (fun acc d => acc * 10 + (d - 48)) 0

/-- The `disasmdict` dictionary of src/colorvm.py. -/
def disasm (bv : Nat) : Option OpName :=
  match bv with
  | 128 => some OpName.add
  | 132 => some OpName.sub
  | 136 => some OpName.mul
  | 140 => some OpName.div
  | 144 => some OpName.rem
  | 148 => some OpName.pop
  | 152 => some OpName.swap
  | 156 => some OpName.dup
  | 160 => some OpName.rot
  | 164 => some OpName.bnot
  | 168 => some OpName.bor
  | 172 => some OpName.band
  | 176 => some OpName.gt
  | 180 => some OpName.eq
  | 184 => some OpName.lt
  | 188 => some OpName.nop
  | 192 => some OpName.halt
  | 196 => some OpName.jmpz
  | 200 => some OpName.jmpnz
  | 204 => some OpName.outc
  | 208 => some OpName.inc
  | 212 => some OpName.outi
  | 216 => some OpName.ini
  | 220 => some OpName.pusha
  | 224 => some OpName.waita
  | 228 => some OpName.neg
  | 232 => some OpName.shl
  | 236 => some OpName.shr
  | _ => none

/-- The byte values `disasmdict` assigns a mnemonic to. -/
def opcodeBytes : List Nat :=
  [128, 132, 136, 140, 144, 148, 152, 156, 160, 164, 168, 172, 176, 180,
   184, 188, 192, 196, 200, 204, 208, 212, 216, 220, 224, 228, 232, 236]

/-- The function `colorexec` of src/colorvm.py: execute the byte at the
channel's instruction pointer (debug printing elided; it reads the same
byte, so the fetch and its possible IndexError are kept). -/
def colorexec (code : Color → List Nat) (size : Nat) (c : Color) (s : VMState) :
    Except VMErr VMState :=
  match pyGet (code c) (s.ip c) with
  | Except.error e => Except.error e
  | Except.ok bv =>
    if bv ≤ 127 then
      Except.ok (bumpStat1 (pushV s c (Int.ofNat bv)) c OpName.push)
    else if bv = 128 then
      Except.ok (bumpStat1 (match s.stack c with
        | a :: b2 :: rest => setStack s c ((a + b2) :: rest)
        | _ => s) c OpName.add)
    else if bv = 132 then
      Except.ok (bumpStat1 (match s.stack c with
        | a :: b2 :: rest => setStack s c ((a - b2) :: rest)
        | _ => s) c OpName.sub)
    else if bv = 136 then
      Except.ok (bumpStat1 (match s.stack c with
        | a :: b2 :: rest => setStack s c ((a * b2) :: rest)
        | _ => s) c OpName.mul)
    else if bv = 140 then
      match s.stack c with
      | a :: b2 :: rest =>
        if b2 = 0 then Except.error VMErr.zeroDivisionError
        else Except.ok (bumpStat1 (setStack s c (Int.fdiv a b2 :: rest)) c OpName.div)
      | _ => Except.ok (bumpStat1 s c OpName.div)
    else if bv = 144 then
      match s.stack c with
      | a :: b2 :: rest =>
        if b2 = 0 then Except.error VMErr.zeroDivisionError
        else Except.ok (bumpStat1 (setStack s c (Int.fmod a b2 :: rest)) c OpName.rem)
      | _ => Except.ok (bumpStat1 s c OpName.rem)
    else if bv = 148 then
      Except.ok (bumpStat1 (match s.stack c with
        | _ :: rest => setStack s c rest
        | _ => s) c OpName.pop)
    else if bv = 152 then
      Except.ok (bumpStat1 (match s.stack c with
        | a :: b2 :: rest => setStack s c (b2 :: a :: rest)
        | _ => s) c OpName.swap)
    else if bv = 156 then
      Except.ok (bumpStat1 (match s.stack c with
        | a :: rest => setStack s c (a :: a :: rest)
        | _ => s) c OpName.dup)
    else if bv = 160 then
      match s.stack c with
      | torot :: rest =>
        if torot ≤ (rest.length : Int) then
          match rest with
          | [] => Except.error VMErr.indexError
          | e :: rest2 =>
            Except.ok (bumpStat1
              (setStack s c (pyInsertTop rest2 ((rest2.length : Int) + 1 - torot) e))
              c OpName.rot)
        else Except.ok (bumpStat1 (setStack s c rest) c OpName.rot)
      | [] => Except.ok (bumpStat1 s c OpName.rot)
    else if bv = 164 then
      Except.ok (bumpStat1 (match s.stack c with
        | a :: rest => setStack s c ((-a - 1) :: rest)
        | _ => s) c OpName.bnot)
    else if bv = 168 then
      Except.ok (bumpStat1 (match s.stack c with
        | a :: b2 :: rest => setStack s c ((Int.lor a b2) :: rest)
        | _ => s) c OpName.bor)
    else if bv = 172 then
      Except.ok (bumpStat1 (match s.stack c with
        | a :: b2 :: rest => setStack s c ((Int.land a b2) :: rest)
        | _ => s) c OpName.band)
    else if bv = 176 then
      Except.ok (bumpStat1 (match s.stack c with
        | a :: b2 :: rest => setStack s c ((if b2 < a then (1 : Int) else 0) :: rest)
        | _ => s) c OpName.gt)
    else if bv = 180 then
      Except.ok (bumpStat1 (match s.stack c with
        | a :: b2 :: rest => setStack s c ((if a = b2 then (1 : Int) else 0) :: rest)
        | _ => s) c OpName.eq)
    else if bv = 184 then
      Except.ok (bumpStat1 (match s.stack c with
        | a :: b2 :: rest => setStack s c ((if a < b2 then (1 : Int) else 0) :: rest)
        | _ => s) c OpName.lt)
    else if bv = 196 then
      match s.stack c with
      | v :: addr :: rest =>
        let s1 := setStack s c rest
        let s2 := if v = 0 then
            (if 0 ≤ addr ∧ addr < (size : Int) then { s1 with ip := updC s1.ip c (addr - 1) }
             else { s1 with ip := updC s1.ip c ((size : Int) - 1) })
          else s1
        Except.ok (bumpStat1 s2 c OpName.jmpz)
      | _ => Except.ok (bumpStat1 s c OpName.jmpz)
    else if bv = 200 then
      match s.stack c with
      | v :: addr :: rest =>
        let s1 := setStack s c rest
        let s2 := if v ≠ 0 then
            (if 0 ≤ addr ∧ addr < (size : Int) then { s1 with ip := updC s1.ip c (addr - 1) }
             else { s1 with ip := updC s1.ip c ((size : Int) - 1) })
          else s1
        Except.ok (bumpStat1 s2 c OpName.jmpnz)
      | _ => Except.ok (bumpStat1 s c OpName.jmpnz)
    else if bv = 204 then
      match s.stack c with
      | a :: rest =>
        if 0 ≤ a ∧ a ≤ 1114111 then
          Except.ok (bumpStat1 (setStack s c rest) c OpName.outc)
        else Except.error VMErr.valueError
      | [] => Except.ok (bumpStat1 s c OpName.outc)
    else if bv = 208 then
      match s.input with
      | [] => Except.error VMErr.eofError
      | line :: restIn =>
        match line with
        | [] => Except.error VMErr.indexError
        | ch :: _ =>
          Except.ok (bumpStat1 (pushV { s with input := restIn } c (Int.ofNat ch)) c OpName.inc)
    else if bv = 212 then
      Except.ok (bumpStat1 (match s.stack c with
        | _ :: rest => setStack s c rest
        | _ => s) c OpName.outi)
    else if bv = 216 then
      match s.input with
      | [] => Except.error VMErr.eofError
      | line :: restIn =>
        let s1 : VMState := { s with input := restIn }
        if isDecimalLine line then
          Except.ok (bumpStat1 (pushV s1 c (Int.ofNat (decimalVal line))) c OpName.ini)
        else Except.ok (bumpStat1 s1 c OpName.ini)
    else if bv = 220 then
      match s.stack c with
      | a :: rest =>
        Except.ok (bumpStat1 { setStack s c rest with astack := a :: s.astack } c OpName.pusha)
      | [] => Except.ok (bumpStat1 s c OpName.pusha)
    else if bv = 224 then
      match s.astack with
      | v :: arest =>
        Except.ok (bumpStat1
          { pushV s c v with
              astack := arest,
              tstate := updC s.tstate c TState.running,
              gConsume := bumpN s.gConsume c } c OpName.waita)
      | [] =>
        Except.ok (bumpStat1
          { s with
              tstate := updC s.tstate c TState.await,
              waitq := s.waitq ++ [c],
              ip := updC s.ip c (s.ip c - 1),
              gSuspend := bumpN s.gSuspend c } c OpName.waita)
    else if bv = 228 then
      Except.ok (bumpStat1 (match s.stack c with
        | a :: rest => setStack s c ((0 - a) :: rest)
        | _ => s) c OpName.neg)
    else if bv = 232 then
      match s.stack c with
      | a :: b2 :: rest =>
        if a < 0 then Except.error VMErr.valueError
        else Except.ok (bumpStat1 (setStack s c ((b2 * 2 ^ a.toNat) :: rest)) c OpName.shl)
      | _ => Except.ok (bumpStat1 s c OpName.shl)
    else if bv = 236 then
      match s.stack c with
      | a :: b2 :: rest =>
        if a < 0 then Except.error VMErr.valueError
        else Except.ok (bumpStat1 (setStack s c ((b2 * 2 ^ a.toNat) :: rest)) c OpName.shr)
      | _ => Except.ok (bumpStat1 s c OpName.shr)
    else
      Except.ok { s with tstate := updC s.tstate c TState.halted }

/-- The ip increment and overrun check the scheduler performs right after
each executed instruction (lines `colorip[color] += 1; if colorip[color]
== size: colorstate[color] = OVERRUN`). -/
def advance (size : Nat) (c : Color) (s : VMState) : VMState :=
  let nip := s.ip c + 1
  let s1 := { s with ip := updC s.ip c nip }
  if nip = (size : Int) then { s1 with tstate := updC s1.tstate c TState.overrun } else s1

/-- The unconditional statistics increment of the scheduler's AWAIT
branch (`colorstat[color]["waita"] += 1` at its line 552), with its ghost
counter. -/
def bumpHead (s : VMState) (c : Color) : VMState :=
  { s with stat := bumpStatF s.stat c OpName.waita, gHead := bumpN s.gHead c }

/-- One channel's slot of the scheduler's main loop body (lines 526-560
of src/colorvm.py): the eager debug fetch, the nop/halt special cases,
the dispatch to `colorexec`, and the AWAIT servicing path. -/
def slot (code : Color → List Nat) (size : Nat) (c : Color) (s : VMState) :
    Except VMErr VMState :=
  match (if s.tstate c = TState.overrun then Except.ok 0 else pyGet (code c) (s.ip c)) with
  | Except.error e => Except.error e
  | Except.ok _ =>
    if s.tstate c = TState.running then
      match pyGet (code c) (s.ip c) with
      | Except.error e => Except.error e
      | Except.ok bv =>
        if bv = 188 then
          Except.ok (advance size c (bumpStat1 s c OpName.nop))
        else if bv = 192 then
          Except.ok { bumpStat1 s c OpName.halt with
                        tstate := updC s.tstate c TState.halted }
        else
          match colorexec code size c s with
          | Except.error e => Except.error e
          | Except.ok s1 => Except.ok (advance size c s1)
    else if s.tstate c = TState.await then
      match s.waitq with
      | [] => Except.error VMErr.indexError
      | h :: t =>
        if h = c then
          let s1 := bumpHead s c
          if s1.astack = [] then Except.ok s1
          else
            match colorexec code size c { s1 with waitq := t } with
            | Except.error e => Except.error e
            | Except.ok s2 => Except.ok (advance size c s2)
        else Except.ok s
    else Except.ok s

/-- One full scheduler pass over the channels in the fixed order r, g, b. -/
def schedPass (code : Color → List Nat) (size : Nat) (s : VMState) : Except VMErr VMState :=
  match slot code size Color.r s with
  | Except.error e => Except.error e
  | Except.ok s1 =>
    match slot code size Color.g s1 with
    | Except.error e => Except.error e
    | Except.ok s2 => slot code size Color.b s2

/-- Iterate `pass` a fixed number of times (no termination check). -/
def passN (code : Color → List Nat) (size : Nat) : Nat → VMState → Except VMErr VMState
  | 0, s => Except.ok s
  | n + 1, s =>
    match schedPass code size s with
    | Except.error e => Except.error e
    | Except.ok s1 => passN code size n s1

/-- Number of channels currently in a given state. -/
def countState (s : VMState) (t : TState) : Nat :=
  (if s.tstate Color.r = t then 1 else 0) +
  (if s.tstate Color.g = t then 1 else 0) +
  (if s.tstate Color.b = t then 1 else 0)

/-- The scheduler's global termination test: no RUNNING channel is left
(all halted/overrun, or the remaining live channels deadlock in AWAIT). -/
def terminatedB (s : VMState) : Bool :=
  decide (countState s TState.running = 0)

/-- The fueled main sequence: run passes until the termination test
fires or the fuel runs out. -/
def run (code : Color → List Nat) (size : Nat) : Nat → VMState → Except VMErr VMState
  | 0, s => Except.ok s
  | n + 1, s =>
    match schedPass code size s with
    | Except.error e => Except.error e
    | Except.ok s1 => if terminatedB s1 then Except.ok s1 else run code size n s1

/-- The interpreter state right after decoding, when every channel has
been moved from LOADING to RUNNING. -/
def initState (input : List (List Nat)) : VMState :=
  { stack := fun _ => []
    astack := []
    tstate := fun _ => TState.running
    ip := fun _ => 0
    stat := fun _ _ => 0
    waitq := []
    input := input
    gConsume := fun _ => 0
    gSuspend := fun _ => 0
    gHead := fun _ => 0 }

/-- Project an `ok` interpreter outcome through a boolean observation;
an aborted run fails the observation. -/
def okCheck (r : Except VMErr VMState) (f : VMState → Bool) : Bool :=
  match r with
  | Except.ok s => f s
  | Except.error _ => false

/-- Extract the state of an `ok` outcome (default otherwise). -/
def forceOk (r : Except VMErr VMState) (dflt : VMState) : VMState :=
  match r with
  | Except.ok s => s
  | Except.error _ => dflt

/-- Byte value of each assigned mnemonic (inverse of `disasm`; `push`
stands for the whole literal range and is given its lowest byte). -/
def byteOf (o : OpName) : Nat :=
  match o with
  | OpName.push => 0
  | OpName.add => 128
  | OpName.sub => 132
  | OpName.mul => 136
  | OpName.div => 140
  | OpName.rem => 144
  | OpName.pop => 148
  | OpName.swap => 152
  | OpName.dup => 156
  | OpName.rot => 160
  | OpName.bnot => 164
  | OpName.bor => 168
  | OpName.band => 172
  | OpName.gt => 176
  | OpName.eq => 180
  | OpName.lt => 184
  | OpName.nop => 188
  | OpName.halt => 192
  | OpName.jmpz => 196
  | OpName.jmpnz => 200
  | OpName.outc => 204
  | OpName.inc => 208
  | OpName.outi => 212
  | OpName.ini => 216
  | OpName.pusha => 220
  | OpName.waita => 224
  | OpName.neg => 228
  | OpName.shl => 232
  | OpName.shr => 236

theorem disasm_some_byte {bv : Nat} {o : OpName} (h : disasm bv = some o) :
    bv = byteOf o := by
  unfold disasm at h
  split at h
  all_goals first
    | (injection h with h; subst h; rfl)
    | (exact Option.noConfusion h)

theorem disasm_none_ne {bv k : Nat} (h : disasm bv = none)
    (hk : k ∈ opcodeBytes) : bv ≠ k := by
  intro hbk
  subst hbk
  fin_cases hk <;> simp [disasm] at h

set_option maxHeartbeats 4000000 in
theorem colorexec_frame {code : Color → List Nat} {size : Nat} {c : Color}
    {s s1 : VMState} (h : colorexec code size c s = Except.ok s1)
    {d : Color} (hd : d ≠ c) :
    s1.ip d = s.ip d ∧ s1.tstate d = s.tstate d ∧ s1.stack d = s.stack d ∧
      (∀ o, s1.stat d o = s.stat d o) ∧ s1.gConsume d = s.gConsume d ∧
      s1.gSuspend d = s.gSuspend d ∧ s1.gHead d = s.gHead d := by
  unfold colorexec at h
  rcases hpg : pyGet (code c) (s.ip c) with e | bv
  · rw [hpg] at h; cases h
  · rw [hpg] at h
    simp only [] at h
    rcases hda : disasm bv with _ | o
    · by_cases h127 : bv ≤ 127
      · rw [if_pos h127] at h
        injection h with h
        subst h
        simp [bumpStat1, bumpStatF, setStack, pushV, updC, bumpN, hd]
      · rw [if_neg h127,
            if_neg (disasm_none_ne hda (by decide : (128:Nat) ∈ opcodeBytes)),
            if_neg (disasm_none_ne hda (by decide : (132:Nat) ∈ opcodeBytes)),
            if_neg (disasm_none_ne hda (by decide : (136:Nat) ∈ opcodeBytes)),
            if_neg (disasm_none_ne hda (by decide : (140:Nat) ∈ opcodeBytes)),
            if_neg (disasm_none_ne hda (by decide : (144:Nat) ∈ opcodeBytes)),
            if_neg (disasm_none_ne hda (by decide : (148:Nat) ∈ opcodeBytes)),
            if_neg (disasm_none_ne hda (by decide : (152:Nat) ∈ opcodeBytes)),
            if_neg (disasm_none_ne hda (by decide : (156:Nat) ∈ opcodeBytes)),
            if_neg (disasm_none_ne hda (by decide : (160:Nat) ∈ opcodeBytes)),
            if_neg (disasm_none_ne hda (by decide : (164:Nat) ∈ opcodeBytes)),
            if_neg (disasm_none_ne hda (by decide : (168:Nat) ∈ opcodeBytes)),
            if_neg (disasm_none_ne hda (by decide : (172:Nat) ∈ opcodeBytes)),
            if_neg (disasm_none_ne hda (by decide : (176:Nat) ∈ opcodeBytes)),
            if_neg (disasm_none_ne hda (by decide : (180:Nat) ∈ opcodeBytes)),
            if_neg (disasm_none_ne hda (by decide : (184:Nat) ∈ opcodeBytes)),
            if_neg (disasm_none_ne hda (by decide : (196:Nat) ∈ opcodeBytes)),
            if_neg (disasm_none_ne hda (by decide : (200:Nat) ∈ opcodeBytes)),
            if_neg (disasm_none_ne hda (by decide : (204:Nat) ∈ opcodeBytes)),
            if_neg (disasm_none_ne hda (by decide : (208:Nat) ∈ opcodeBytes)),
            if_neg (disasm_none_ne hda (by decide : (212:Nat) ∈ opcodeBytes)),
            if_neg (disasm_none_ne hda (by decide : (216:Nat) ∈ opcodeBytes)),
            if_neg (disasm_none_ne hda (by decide : (220:Nat) ∈ opcodeBytes)),
            if_neg (disasm_none_ne hda (by decide : (224:Nat) ∈ opcodeBytes)),
            if_neg (disasm_none_ne hda (by decide : (228:Nat) ∈ opcodeBytes)),
            if_neg (disasm_none_ne hda (by decide : (232:Nat) ∈ opcodeBytes)),
            if_neg (disasm_none_ne hda (by decide : (236:Nat) ∈ opcodeBytes))] at h
        injection h with h
        subst h
        simp [updC, hd]
    · have hb := disasm_some_byte hda
      subst hb
      cases o <;>
        · simp only [byteOf] at h
          norm_num at h
          repeat' split at h
          all_goals cases h
          all_goals simp [bumpStat1, bumpStatF, setStack, pushV, updC, bumpN, hd]

set_option maxHeartbeats 4000000 in
theorem colorexec_post {code : Color → List Nat} {size : Nat} {c : Color}
    {s s1 : VMState} (h : colorexec code size c s = Except.ok s1)
    (h0 : 0 ≤ s.ip c) (h1 : s.ip c < (size : Nat)) (hst : s.tstate c ≠ TState.overrun) :
    0 ≤ s1.ip c + 1 ∧ s1.ip c + 1 ≤ (size : Nat) ∧ s1.tstate c ≠ TState.overrun := by
  unfold colorexec at h
  rcases hpg : pyGet (code c) (s.ip c) with e | bv
  · rw [hpg] at h; cases h
  · rw [hpg] at h
    simp only [] at h
    rcases hda : disasm bv with _ | o
    · by_cases h127 : bv ≤ 127
      · rw [if_pos h127] at h
        injection h with h
        subst h
        have hip : (bumpStat1 (pushV s c (Int.ofNat bv)) c OpName.push).ip c = s.ip c := rfl
        refine ⟨?_, ?_, ?_⟩
        · rw [hip]; omega
        · rw [hip]; omega
        · simpa [bumpStat1, bumpStatF, pushV, setStack, updC] using hst
      · rw [if_neg h127,
            if_neg (disasm_none_ne hda (by decide : (128:Nat) ∈ opcodeBytes)),
            if_neg (disasm_none_ne hda (by decide : (132:Nat) ∈ opcodeBytes)),
            if_neg (disasm_none_ne hda (by decide : (136:Nat) ∈ opcodeBytes)),
            if_neg (disasm_none_ne hda (by decide : (140:Nat) ∈ opcodeBytes)),
            if_neg (disasm_none_ne hda (by decide : (144:Nat) ∈ opcodeBytes)),
            if_neg (disasm_none_ne hda (by decide : (148:Nat) ∈ opcodeBytes)),
            if_neg (disasm_none_ne hda (by decide : (152:Nat) ∈ opcodeBytes)),
            if_neg (disasm_none_ne hda (by decide : (156:Nat) ∈ opcodeBytes)),
            if_neg (disasm_none_ne hda (by decide : (160:Nat) ∈ opcodeBytes)),
            if_neg (disasm_none_ne hda (by decide : (164:Nat) ∈ opcodeBytes)),
            if_neg (disasm_none_ne hda (by decide : (168:Nat) ∈ opcodeBytes)),
            if_neg (disasm_none_ne hda (by decide : (172:Nat) ∈ opcodeBytes)),
            if_neg (disasm_none_ne hda (by decide : (176:Nat) ∈ opcodeBytes)),
            if_neg (disasm_none_ne hda (by decide : (180:Nat) ∈ opcodeBytes)),
            if_neg (disasm_none_ne hda (by decide : (184:Nat) ∈ opcodeBytes)),
            if_neg (disasm_none_ne hda (by decide : (196:Nat) ∈ opcodeBytes)),
            if_neg (disasm_none_ne hda (by decide : (200:Nat) ∈ opcodeBytes)),
            if_neg (disasm_none_ne hda (by decide : (204:Nat) ∈ opcodeBytes)),
            if_neg (disasm_none_ne hda (by decide : (208:Nat) ∈ opcodeBytes)),
            if_neg (disasm_none_ne hda (by decide : (212:Nat) ∈ opcodeBytes)),
            if_neg (disasm_none_ne hda (by decide : (216:Nat) ∈ opcodeBytes)),
            if_neg (disasm_none_ne hda (by decide : (220:Nat) ∈ opcodeBytes)),
            if_neg (disasm_none_ne hda (by decide : (224:Nat) ∈ opcodeBytes)),
            if_neg (disasm_none_ne hda (by decide : (228:Nat) ∈ opcodeBytes)),
            if_neg (disasm_none_ne hda (by decide : (232:Nat) ∈ opcodeBytes)),
            if_neg (disasm_none_ne hda (by decide : (236:Nat) ∈ opcodeBytes))] at h
        injection h with h
        subst h
        refine ⟨show 0 ≤ s.ip c + 1 by omega, show s.ip c + 1 ≤ (size : Nat) by omega, ?_⟩
        simp [updC]
    · have hb := disasm_some_byte hda
      subst hb
      cases o <;>
        · simp only [byteOf] at h
          norm_num at h
          repeat' split at h
          all_goals cases h
          all_goals simp_all [bumpStat1, bumpStatF, setStack, pushV, updC, bumpN]
          all_goals omega

set_option maxHeartbeats 4000000 in
theorem colorexec_statEq {code : Color → List Nat} {size : Nat} {c : Color}
    {s s1 : VMState} (h : colorexec code size c s = Except.ok s1)
    (hEq : ∀ d, s.stat d OpName.waita = s.gConsume d + s.gSuspend d + s.gHead d) :
    ∀ d, s1.stat d OpName.waita = s1.gConsume d + s1.gSuspend d + s1.gHead d := by
  unfold colorexec at h
  rcases hpg : pyGet (code c) (s.ip c) with e | bv
  · rw [hpg] at h; cases h
  · rw [hpg] at h
    simp only [] at h
    rcases hda : disasm bv with _ | o
    · by_cases h127 : bv ≤ 127
      · rw [if_pos h127] at h
        injection h with h
        subst h
        intro d
        have hE := hEq d
        simp [bumpStat1, bumpStatF, pushV, setStack, updC, hE]
      · rw [if_neg h127,
            if_neg (disasm_none_ne hda (by decide : (128:Nat) ∈ opcodeBytes)),
            if_neg (disasm_none_ne hda (by decide : (132:Nat) ∈ opcodeBytes)),
            if_neg (disasm_none_ne hda (by decide : (136:Nat) ∈ opcodeBytes)),
            if_neg (disasm_none_ne hda (by decide : (140:Nat) ∈ opcodeBytes)),
            if_neg (disasm_none_ne hda (by decide : (144:Nat) ∈ opcodeBytes)),
            if_neg (disasm_none_ne hda (by decide : (148:Nat) ∈ opcodeBytes)),
            if_neg (disasm_none_ne hda (by decide : (152:Nat) ∈ opcodeBytes)),
            if_neg (disasm_none_ne hda (by decide : (156:Nat) ∈ opcodeBytes)),
            if_neg (disasm_none_ne hda (by decide : (160:Nat) ∈ opcodeBytes)),
            if_neg (disasm_none_ne hda (by decide : (164:Nat) ∈ opcodeBytes)),
            if_neg (disasm_none_ne hda (by decide : (168:Nat) ∈ opcodeBytes)),
            if_neg (disasm_none_ne hda (by decide : (172:Nat) ∈ opcodeBytes)),
            if_neg (disasm_none_ne hda (by decide : (176:Nat) ∈ opcodeBytes)),
            if_neg (disasm_none_ne hda (by decide : (180:Nat) ∈ opcodeBytes)),
            if_neg (disasm_none_ne hda (by decide : (184:Nat) ∈ opcodeBytes)),
            if_neg (disasm_none_ne hda (by decide : (196:Nat) ∈ opcodeBytes)),
            if_neg (disasm_none_ne hda (by decide : (200:Nat) ∈ opcodeBytes)),
            if_neg (disasm_none_ne hda (by decide : (204:Nat) ∈ opcodeBytes)),
            if_neg (disasm_none_ne hda (by decide : (208:Nat) ∈ opcodeBytes)),
            if_neg (disasm_none_ne hda (by decide : (212:Nat) ∈ opcodeBytes)),
            if_neg (disasm_none_ne hda (by decide : (216:Nat) ∈ opcodeBytes)),
            if_neg (disasm_none_ne hda (by decide : (220:Nat) ∈ opcodeBytes)),
            if_neg (disasm_none_ne hda (by decide : (224:Nat) ∈ opcodeBytes)),
            if_neg (disasm_none_ne hda (by decide : (228:Nat) ∈ opcodeBytes)),
            if_neg (disasm_none_ne hda (by decide : (232:Nat) ∈ opcodeBytes)),
            if_neg (disasm_none_ne hda (by decide : (236:Nat) ∈ opcodeBytes))] at h
        injection h with h
        subst h
        intro d
        exact hEq d
    · have hb := disasm_some_byte hda
      subst hb
      cases o <;>
        · simp only [byteOf] at h
          norm_num at h
          repeat' split at h
          all_goals cases h
          all_goals intro d
          all_goals have hE := hEq d
          all_goals rcases eq_or_ne d c with rfl | hdc
          all_goals simp_all [bumpStat1, bumpStatF, setStack, pushV, updC, bumpN]
          all_goals omega

/-- Claim C5's invariant, per channel: the instruction pointer stays in
`[0, size]` and the OVERRUN state marks exactly `ip = size`. -/
def VmInv (size : Nat) (s : VMState) : Prop :=
  ∀ c, 0 ≤ s.ip c ∧ s.ip c ≤ (size : Int) ∧
    (s.tstate c = TState.overrun ↔ s.ip c = (size : Int))

/-- Claim C2's bookkeeping invariant: every `waita` count in the
statistics table is the sum of the three counting sites (consumptions,
suspensions, AWAIT-head visits). -/
def StatEq (s : VMState) : Prop :=
  ∀ d, s.stat d OpName.waita = s.gConsume d + s.gSuspend d + s.gHead d

theorem advance_stack (size : Nat) (c : Color) (s1 : VMState) :
    (advance size c s1).stack = s1.stack := by
  by_cases hz : s1.ip c + 1 = (size : Int) <;> simp [advance, hz]

theorem advance_stat (size : Nat) (c : Color) (s1 : VMState) :
    (advance size c s1).stat = s1.stat := by
  by_cases hz : s1.ip c + 1 = (size : Int) <;> simp [advance, hz]

theorem advance_ghosts (size : Nat) (c : Color) (s1 : VMState) :
    (advance size c s1).gConsume = s1.gConsume ∧
      (advance size c s1).gSuspend = s1.gSuspend ∧
      (advance size c s1).gHead = s1.gHead := by
  by_cases hz : s1.ip c + 1 = (size : Int) <;> simp [advance, hz]

theorem advance_other (size : Nat) (c : Color) (s1 : VMState) (d : Color)
    (hd : d ≠ c) :
    (advance size c s1).ip d = s1.ip d ∧ (advance size c s1).tstate d = s1.tstate d := by
  by_cases hz : s1.ip c + 1 = (size : Int) <;> simp [advance, hz, updC, hd]

theorem advance_invC (size : Nat) (c : Color) (s1 : VMState)
    (hA : 0 ≤ s1.ip c + 1) (hB : s1.ip c + 1 ≤ (size : Int))
    (hC : s1.tstate c ≠ TState.overrun) :
    0 ≤ (advance size c s1).ip c ∧ (advance size c s1).ip c ≤ (size : Int) ∧
      ((advance size c s1).tstate c = TState.overrun ↔
        (advance size c s1).ip c = (size : Int)) := by
  by_cases hz : s1.ip c + 1 = (size : Int)
  · simp [advance, hz, updC]
  · simp [advance, hz, updC]
    exact ⟨hA, by omega, hC⟩

/-- A channel whose state is RUNNING or AWAIT has, under the invariant,
an in-range instruction pointer. -/
theorem vminv_live (size : Nat) (s : VMState) (c : Color) (hInv : VmInv size s)
    (hst : s.tstate c ≠ TState.overrun) :
    0 ≤ s.ip c ∧ s.ip c < (size : Int) := by
  obtain ⟨h0, h1, h2⟩ := hInv c
  refine ⟨h0, ?_⟩
  rcases lt_or_eq_of_le h1 with h | h
  · exact h
  · exact absurd (h2.mpr h) hst

set_option maxHeartbeats 1000000 in
theorem slot_inv {code : Color → List Nat} {size : Nat} {c : Color}
    {s s' : VMState} (hInv : VmInv size s)
    (h : slot code size c s = Except.ok s') : VmInv size s' := by
  unfold slot at h
  by_cases hov : s.tstate c = TState.overrun
  · rw [if_pos hov] at h
    simp only [] at h
    rw [if_neg (by simp [hov]), if_neg (by simp [hov])] at h
    injection h with h
    subst h
    exact hInv
  · rw [if_neg hov] at h
    rcases hpg : pyGet (code c) (s.ip c) with e | bv
    · rw [hpg] at h; cases h
    · rw [hpg] at h
      simp only [] at h
      obtain ⟨hip0, hip1⟩ := vminv_live size s c hInv hov
      by_cases hrun : s.tstate c = TState.running
      · rw [if_pos hrun] at h
        by_cases hnop : bv = 188
        · rw [if_pos hnop] at h
          injection h with h
          subst h
          intro d
          by_cases hdc : d = c
          · subst hdc
            exact advance_invC size d (bumpStat1 s d OpName.nop)
              (by show 0 ≤ s.ip d + 1; omega)
              (by show s.ip d + 1 ≤ (size : Int); omega)
              (by show s.tstate d ≠ TState.overrun; exact hov)
          · obtain ⟨hi, ht⟩ := advance_other size c (bumpStat1 s c OpName.nop) d hdc
            rw [hi, ht]
            exact hInv d
        · rw [if_neg hnop] at h
          by_cases hhalt : bv = 192
          · rw [if_pos hhalt] at h
            injection h with h
            subst h
            intro d
            by_cases hdc : d = c
            · subst hdc
              refine ⟨hip0, le_of_lt hip1, ?_⟩
              show updC s.tstate d TState.halted d = TState.overrun ↔ s.ip d = (size : Int)
              simp [updC]
              omega
            · have hi : ({ bumpStat1 s c OpName.halt with
                  tstate := updC s.tstate c TState.halted } : VMState).ip d = s.ip d := rfl
              have ht : ({ bumpStat1 s c OpName.halt with
                  tstate := updC s.tstate c TState.halted } : VMState).tstate d = s.tstate d := by
                show updC s.tstate c TState.halted d = s.tstate d
                simp [updC, hdc]
              rw [hi, ht]
              exact hInv d
          · rw [if_neg hhalt] at h
            rcases hce : colorexec code size c s with e | s1
            · rw [hce] at h; cases h
            · rw [hce] at h
              injection h with h
              subst h
              intro d
              by_cases hdc : d = c
              · subst hdc
                obtain ⟨hA, hB, hC⟩ := colorexec_post hce hip0 hip1 hov
                exact advance_invC size d s1 hA hB hC
              · obtain ⟨hi1, ht1, _⟩ := colorexec_frame hce hdc
                obtain ⟨hi2, ht2⟩ := advance_other size c s1 d hdc
                rw [hi2, ht2, hi1, ht1]
                exact hInv d
      · rw [if_neg hrun] at h
        by_cases hwait : s.tstate c = TState.await
        · rw [if_pos hwait] at h
          rcases hq : s.waitq with _ | ⟨q0, t⟩
          · rw [hq] at h; cases h
          · rw [hq] at h
            simp only [] at h
            by_cases hqc : q0 = c
            · rw [if_pos hqc] at h
              by_cases ha : (bumpHead s c).astack = []
              · rw [if_pos ha] at h
                injection h with h
                subst h
                intro d
                exact hInv d
              · rw [if_neg ha] at h
                rcases hce : colorexec code size c { bumpHead s c with waitq := t } with e | s2
                · rw [hce] at h; cases h
                · rw [hce] at h
                  injection h with h
                  subst h
                  intro d
                  by_cases hdc : d = c
                  · subst hdc
                    obtain ⟨hA, hB, hC⟩ := colorexec_post hce
                      (by show 0 ≤ s.ip d; omega)
                      (by show s.ip d < (size : Int); omega)
                      (by show s.tstate d ≠ TState.overrun; exact hov)
                    exact advance_invC size d s2 hA hB hC
                  · obtain ⟨hi1, ht1, _⟩ := colorexec_frame hce hdc
                    obtain ⟨hi2, ht2⟩ := advance_other size c s2 d hdc
                    rw [hi2, ht2, hi1, ht1]
                    exact hInv d
            · rw [if_neg hqc] at h
              injection h with h
              subst h
              exact hInv
        · rw [if_neg hwait] at h
          injection h with h
          subst h
          exact hInv

theorem pass_inv {code : Color → List Nat} {size : Nat} {s s' : VMState}
    (hInv : VmInv size s) (h : schedPass code size s = Except.ok s') : VmInv size s' := by
  unfold schedPass at h
  rcases h1 : slot code size Color.r s with e | sr
  · rw [h1] at h; cases h
  · rw [h1] at h
    simp only [] at h
    rcases h2 : slot code size Color.g sr with e | sg
    · rw [h2] at h; cases h
    · rw [h2] at h
      simp only [] at h
      exact slot_inv (slot_inv (slot_inv hInv h1) h2) h

theorem statEq_advance {size : Nat} {c : Color} {s1 : VMState}
    (hEq : StatEq s1) : StatEq (advance size c s1) := by
  intro d
  have hst := advance_stat size c s1
  obtain ⟨hg1, hg2, hg3⟩ := advance_ghosts size c s1
  rw [hst, hg1, hg2, hg3]
  exact hEq d

theorem statEq_bumpHead {c : Color} {s : VMState} (hEq : StatEq s) :
    StatEq (bumpHead s c) := by
  intro d
  have hE := hEq d
  by_cases hdc : d = c
  · subst hdc
    simp [bumpHead, bumpStatF, bumpN, hE]
    omega
  · simp [bumpHead, bumpStatF, bumpN, hdc, hE]

set_option maxHeartbeats 1000000 in
theorem slot_statEq {code : Color → List Nat} {size : Nat} {c : Color}
    {s s' : VMState} (hEq : StatEq s)
    (h : slot code size c s = Except.ok s') : StatEq s' := by
  unfold slot at h
  by_cases hov : s.tstate c = TState.overrun
  · rw [if_pos hov] at h
    simp only [] at h
    rw [if_neg (by simp [hov]), if_neg (by simp [hov])] at h
    injection h with h
    subst h
    exact hEq
  · rw [if_neg hov] at h
    rcases hpg : pyGet (code c) (s.ip c) with e | bv
    · rw [hpg] at h; cases h
    · rw [hpg] at h
      simp only [] at h
      by_cases hrun : s.tstate c = TState.running
      · rw [if_pos hrun] at h
        by_cases hnop : bv = 188
        · rw [if_pos hnop] at h
          injection h with h
          subst h
          refine statEq_advance ?_
          intro d
          have hE := hEq d
          by_cases hdc : d = c
          · subst hdc
            simpa [bumpStat1, bumpStatF] using hE
          · simpa [bumpStat1, bumpStatF, hdc] using hE
        · rw [if_neg hnop] at h
          by_cases hhalt : bv = 192
          · rw [if_pos hhalt] at h
            injection h with h
            subst h
            intro d
            have hE := hEq d
            by_cases hdc : d = c
            · subst hdc
              simpa [bumpStat1, bumpStatF] using hE
            · simpa [bumpStat1, bumpStatF, hdc] using hE
          · rw [if_neg hhalt] at h
            rcases hce : colorexec code size c s with e | s1
            · rw [hce] at h; cases h
            · rw [hce] at h
              injection h with h
              subst h
              exact statEq_advance (colorexec_statEq hce hEq)
      · rw [if_neg hrun] at h
        by_cases hwait : s.tstate c = TState.await
        · rw [if_pos hwait] at h
          rcases hq : s.waitq with _ | ⟨q0, t⟩
          · rw [hq] at h; cases h
          · rw [hq] at h
            simp only [] at h
            by_cases hqc : q0 = c
            · rw [if_pos hqc] at h
              by_cases ha : (bumpHead s c).astack = []
              · rw [if_pos ha] at h
                injection h with h
                subst h
                exact statEq_bumpHead hEq
              · rw [if_neg ha] at h
                rcases hce : colorexec code size c { bumpHead s c with waitq := t } with e | s2
                · rw [hce] at h; cases h
                · rw [hce] at h
                  injection h with h
                  subst h
                  refine statEq_advance (colorexec_statEq hce ?_)
                  intro d
                  exact statEq_bumpHead hEq d
            · rw [if_neg hqc] at h
              injection h with h
              subst h
              exact hEq
        · rw [if_neg hwait] at h
          injection h with h
          subst h
          exact hEq

theorem pass_statEq {code : Color → List Nat} {size : Nat} {s s' : VMState}
    (hEq : StatEq s) (h : schedPass code size s = Except.ok s') : StatEq s' := by
  unfold schedPass at h
  rcases h1 : slot code size Color.r s with e | sr
  · rw [h1] at h; cases h
  · rw [h1] at h
    simp only [] at h
    rcases h2 : slot code size Color.g sr with e | sg
    · rw [h2] at h; cases h
    · rw [h2] at h
      simp only [] at h
      exact slot_statEq (slot_statEq (slot_statEq hEq h1) h2) h

theorem advance_ip_self (size : Nat) (c : Color) (s1 : VMState) :
    (advance size c s1).ip c = s1.ip c + 1 := by
  by_cases hz : s1.ip c + 1 = (size : Int) <;> simp [advance, hz, updC]

/-- In the RUNNING branch, a byte that is neither `nop` nor `halt` is
delegated to `colorexec` followed by the ip increment and overrun check. -/
theorem slot_run_exec {code : Color → List Nat} {size : Nat} {c : Color}
    {s : VMState} (hrun : s.tstate c = TState.running)
    {bv : Nat} (hpg : pyGet (code c) (s.ip c) = Except.ok bv)
    (hnop : bv ≠ 188) (hhalt : bv ≠ 192) :
    slot code size c s =
      (match colorexec code size c s with
        | Except.error e => Except.error e
        | Except.ok s1 => Except.ok (advance size c s1)) := by
  unfold slot
  rw [if_neg (by simp [hrun])]
  rw [hpg]
  simp only []
  rw [if_pos hrun, if_neg hnop, if_neg hhalt]

/-- A program byte of the reserved high range with no assigned mnemonic
takes `colorexec`'s default arm: message plus transition to HALTED. -/
theorem colorexec_invalid {code : Color → List Nat} {size : Nat} {c : Color}
    {s : VMState} {bv : Nat} (hpg : pyGet (code c) (s.ip c) = Except.ok bv)
    (h128 : 128 ≤ bv) (hnone : disasm bv = none) :
    colorexec code size c s =
      Except.ok { s with tstate := updC s.tstate c TState.halted } := by
  unfold colorexec
  rw [hpg]
  simp only []
  rw [if_neg (by omega),
      if_neg (disasm_none_ne hnone (by decide : (128:Nat) ∈ opcodeBytes)),
      if_neg (disasm_none_ne hnone (by decide : (132:Nat) ∈ opcodeBytes)),
      if_neg (disasm_none_ne hnone (by decide : (136:Nat) ∈ opcodeBytes)),
      if_neg (disasm_none_ne hnone (by decide : (140:Nat) ∈ opcodeBytes)),
      if_neg (disasm_none_ne hnone (by decide : (144:Nat) ∈ opcodeBytes)),
      if_neg (disasm_none_ne hnone (by decide : (148:Nat) ∈ opcodeBytes)),
      if_neg (disasm_none_ne hnone (by decide : (152:Nat) ∈ opcodeBytes)),
      if_neg (disasm_none_ne hnone (by decide : (156:Nat) ∈ opcodeBytes)),
      if_neg (disasm_none_ne hnone (by decide : (160:Nat) ∈ opcodeBytes)),
      if_neg (disasm_none_ne hnone (by decide : (164:Nat) ∈ opcodeBytes)),
      if_neg (disasm_none_ne hnone (by decide : (168:Nat) ∈ opcodeBytes)),
      if_neg (disasm_none_ne hnone (by decide : (172:Nat) ∈ opcodeBytes)),
      if_neg (disasm_none_ne hnone (by decide : (176:Nat) ∈ opcodeBytes)),
      if_neg (disasm_none_ne hnone (by decide : (180:Nat) ∈ opcodeBytes)),
      if_neg (disasm_none_ne hnone (by decide : (184:Nat) ∈ opcodeBytes)),
      if_neg (disasm_none_ne hnone (by decide : (196:Nat) ∈ opcodeBytes)),
      if_neg (disasm_none_ne hnone (by decide : (200:Nat) ∈ opcodeBytes)),
      if_neg (disasm_none_ne hnone (by decide : (204:Nat) ∈ opcodeBytes)),
      if_neg (disasm_none_ne hnone (by decide : (208:Nat) ∈ opcodeBytes)),
      if_neg (disasm_none_ne hnone (by decide : (212:Nat) ∈ opcodeBytes)),
      if_neg (disasm_none_ne hnone (by decide : (216:Nat) ∈ opcodeBytes)),
      if_neg (disasm_none_ne hnone (by decide : (220:Nat) ∈ opcodeBytes)),
      if_neg (disasm_none_ne hnone (by decide : (224:Nat) ∈ opcodeBytes)),
      if_neg (disasm_none_ne hnone (by decide : (228:Nat) ∈ opcodeBytes)),
      if_neg (disasm_none_ne hnone (by decide : (232:Nat) ∈ opcodeBytes)),
      if_neg (disasm_none_ne hnone (by decide : (236:Nat) ∈ opcodeBytes))]

/-- A pixel source: dimensions plus a point query, the interface the
decoder of src/colorvm.py needs from PIL's `Image`. -/
structure PImage where
  width : Nat
  height : Nat
  pix : Nat → Nat → Nat × Nat × Nat

/-- Decoder outcomes. `unsupportedVersion` and `emptyProgram` are the
source's explicit version/size rejections; `indexError` is PIL's
exception for an out-of-range `getpixel`; `imageTooSmall` is the error
the specification names and is modelled from the spec for comparison. -/
inductive DecodeErr
  | unsupportedVersion | emptyProgram | imageTooSmall | indexError
  deriving DecidableEq

/-- PIL `getpixel`: the RGB triple in range, an IndexError outside. -/
def getpixel (img : PImage) (x y : Nat) : Except DecodeErr (Nat × Nat × Nat) :=
  if x < img.width ∧ y < img.height then Except.ok (img.pix x y)
  else Except.error DecodeErr.indexError

/-- The pixel-reading loop of src/colorvm.py (`while i <= size`): read a
cell, step x by `cellsize`, wrap to the next row when `x > width - 1`. -/
def pwalk (img : PImage) (cellsize : Nat) :
    Nat → Nat → Nat → Except DecodeErr (List Nat × List Nat × List Nat)
  | 0, _, _ => Except.ok ([], [], [])
  | Nat.succ n, x, y =>
    match getpixel img x y with
    | Except.error e => Except.error e
    | Except.ok (cr, cg, cb) =>
      let x1 := x + cellsize
      let p : Nat × Nat := if img.width - 1 < x1 then (0, y + cellsize) else (x1, y)
      match pwalk img cellsize n p.1 p.2 with
      | Except.error e => Except.error e
      | Except.ok (rs, gs, bs) => Except.ok (cr :: rs, cg :: gs, cb :: bs)

def V_MAJOR : Nat := 1

def V_MINOR : Nat := 0

/-- The decoder of src/colorvm.py: version gate from header cell 0, size
from header cell 1 (whose position depends on whether the image is one
cell wide), start position from the size, then the pixel walk. -/
def decode (img : PImage) : Except DecodeErr (List Nat × List Nat × List Nat) :=
  match getpixel img 0 0 with
  | Except.error e => Except.error e
  | Except.ok (majorver, minorver, cellsize) =>
    if V_MAJOR < majorver ∨ (majorver = V_MAJOR ∧ V_MINOR < minorver) then
      Except.error DecodeErr.unsupportedVersion
    else
      match (if img.width = cellsize then getpixel img 0 cellsize
             else getpixel img cellsize 0) with
      | Except.error e => Except.error e
      | Except.ok (s3, s2, s1) =>
        let size := s3 * 65536 + s2 * 256 + s1
        if size = 0 then Except.error DecodeErr.emptyProgram
        else
          let start : Nat × Nat :=
            if size = 1 then (0, 2 * cellsize)
            else if 2 ≤ size ∧ size ≤ 6 then (0, cellsize)
            else (2 * cellsize, 0)
          pwalk img cellsize size start.1 start.2

/-- Observation: did the decoder fail with the spec's ImageTooSmall? -/
def isImageTooSmall (r : Except DecodeErr (List Nat × List Nat × List Nat)) : Bool :=
  match r with
  | Except.error DecodeErr.imageTooSmall => true
  | _ => false

theorem getpixel_err {img : PImage} {x y : Nat} {e : DecodeErr}
    (h : getpixel img x y = Except.error e) : e = DecodeErr.indexError := by
  unfold getpixel at h
  split at h
  · cases h
  · injection h with h
    exact h.symm

theorem pwalk_not_toosmall (img : PImage) (cellsize : Nat) :
    ∀ n x y, isImageTooSmall (pwalk img cellsize n x y) = false := by
  intro n
  induction n with
  | zero => intro x y; rfl
  | succ n ih =>
    intro x y
    unfold pwalk
    rcases hg : getpixel img x y with e | trip
    · have := getpixel_err hg
      subst this
      rfl
    · obtain ⟨cr, cg, cb⟩ := trip
      simp only []
      rcases hw : pwalk img cellsize n
          (if img.width - 1 < x + cellsize then ((0 : Nat), y + cellsize) else (x + cellsize, y)).1
          (if img.width - 1 < x + cellsize then ((0 : Nat), y + cellsize) else (x + cellsize, y)).2
        with e | triple
      · have hx := ih
          (if img.width - 1 < x + cellsize then ((0 : Nat), y + cellsize) else (x + cellsize, y)).1
          (if img.width - 1 < x + cellsize then ((0 : Nat), y + cellsize) else (x + cellsize, y)).2
        rw [hw] at hx
        exact hx
      · obtain ⟨rs, gs, bs⟩ := triple
        rfl

/-- An image whose cell walk leaves the bounds: one cell wide per the
header but the walk, started at `(2, 0)` for size 7, immediately reads
column 2 of a 2-pixel-wide image. -/
def cexImage : PImage :=
  { width := 2
    height := 2
    pix := fun x y =>
      if x = 0 ∧ y = 0 then (1, 0, 1)
      else if x = 1 ∧ y = 0 then (0, 0, 7)
      else (0, 0, 0) }

/-- Program for C1: channel r pushes 4, pushes 1, executes shr, halts. -/
def progC1 : Color → List Nat
  | Color.r => [4, 1, 236, 192]
  | _ => [188, 188, 188, 192]

/-- C1: the specification says `shr` (0xEC) pops s (top) then v and
pushes `v >> s`. The source's 0xEC arm applies a LEFT shift (a verbatim
copy of the shl arm), contradicting its own `shr` mnemonic in
`disasmdict`: with v = 4, s = 1 the stack ends as [8] (= 4 << 1), not
[2] (= 4 >> 1), while the shr counter is incremented. -/
theorem claim_C1 :
    okCheck (run progC1 4 10 (initState []))
      (fun s => decide (s.stack Color.r = [8]) &&
        !(decide (s.stack Color.r = [2])) &&
        decide (s.stat Color.r OpName.shr = 1)) = true := by rfl

/-- Program for C2: channel g executes waita on an empty alpha stack;
r and b halt at once, so the VM terminates as a deadlock. -/
def progC2 : Color → List Nat
  | Color.g => [224, 188]
  | _ => [192, 188]

/-- C2 counterexample: g suspends on waita and is never resumed, so the
number of logical executions counted at the resume step (the ghost
consumption counter) is 0, yet stat[g]["waita"] is already 1: the
counter does not equal the resume-counted logical executions. -/
theorem cex_C2 :
    okCheck (run progC2 2 10 (initState []))
      (fun s => decide (s.stat Color.g OpName.waita = 1) &&
        decide (s.gConsume Color.g = 0) &&
        decide (s.tstate Color.g = TState.await)) = true := by rfl

/-- C2 amended: stat[c]["waita"] equals the sum of three counting sites
of the source — alpha consumptions (direct or at resume), suspensions,
and scheduler passes that service c at the head of the wait queue — and
this bookkeeping identity holds initially and is preserved by every
scheduler pass (so a suspend followed by a resume contributes at least
three, never one). -/
theorem claim_C2 (code : Color → List Nat) (size : Nat) (inp : List (List Nat))
    (s s' : VMState) (hEq : StatEq s) (h : schedPass code size s = Except.ok s') :
    StatEq (initState inp) ∧ StatEq s' :=
  ⟨fun _ => rfl, pass_statEq hEq h⟩

theorem wit_C2 :
    StatEq (initState []) ∧
      StatEq (forceOk (schedPass progC2 2 (initState [])) (initState [])) :=
  claim_C2 progC2 2 [] (initState [])
    (forceOk (schedPass progC2 2 (initState [])) (initState []))
    (fun _ => rfl) (by rfl)

/-- Program for C3: channel r pushes 0, pushes 5, executes div (5 // 0). -/
def progC3 : Color → List Nat
  | Color.r => [0, 5, 140, 192]
  | _ => [188, 188, 188, 192]

/-- C3 counterexample: div with a zero divisor does not halt only the
offending thread — the whole interpreter aborts with an uncaught
ZeroDivisionError (the `Except.error` outcome), so no thread continues. -/
theorem cex_C3 :
    run progC3 4 10 (initState []) = Except.error VMErr.zeroDivisionError := by rfl

/-- C3 amended: for every RUNNING thread about to execute div (0x8C) or
rem (0x90) whose stack holds a zero divisor as second element, the
scheduler slot aborts the whole VM with ZeroDivisionError; the thread is
not transitioned to HALTED and no later thread of the pass runs. -/
theorem claim_C3 (code : Color → List Nat) (size : Nat) (c : Color) (s : VMState)
    (a : Int) (rest : List Int) (hrun : s.tstate c = TState.running)
    (hb : pyGet (code c) (s.ip c) = Except.ok 140 ∨
      pyGet (code c) (s.ip c) = Except.ok 144)
    (hstk : s.stack c = a :: 0 :: rest) :
    slot code size c s = Except.error VMErr.zeroDivisionError := by
  rcases hb with hb | hb <;>
    · rw [slot_run_exec hrun hb (by decide) (by decide)]
      unfold colorexec
      rw [hb]
      norm_num
      rw [hstk]
      simp

/-- State for the C3 witness: channel r runs `div` with stack [5, 0]. -/
def stC3 : VMState :=
  { initState [] with stack := updC (fun _ => []) Color.r [5, 0] }

theorem wit_C3 :
    slot (fun _ => [140]) 1 Color.r stC3 = Except.error VMErr.zeroDivisionError :=
  claim_C3 (fun _ => [140]) 1 Color.r stC3 5 [] (by rfl) (Or.inl (by rfl)) (by rfl)

/-- Nop-only program of size 1 for the C5 witness. -/
def progC5 : Color → List Nat := fun _ => [188]

/-- C5: the scheduler invariant — every instruction pointer stays within
[0, size] and a thread is OVERRUN exactly when its ip equals size — holds
in the initial state (for any nonempty program) and is preserved by every
full scheduler pass that completes normally. -/
theorem claim_C5 (code : Color → List Nat) (size : Nat) (inp : List (List Nat))
    (hsz : 1 ≤ size) (s s' : VMState) (hInv : VmInv size s)
    (h : schedPass code size s = Except.ok s') :
    VmInv size (initState inp) ∧ VmInv size s' := by
  constructor
  · intro c
    refine ⟨le_refl 0, ?_, ?_⟩
    · show (0 : Int) ≤ (size : Int)
      omega
    · show TState.running = TState.overrun ↔ (0 : Int) = (size : Int)
      constructor
      · intro hx
        exact absurd hx (by decide)
      · intro hx
        exfalso
        omega
  · exact pass_inv hInv h

theorem wit_C5 :
    VmInv 1 (initState []) ∧
      VmInv 1 (forceOk (schedPass progC5 1 (initState [])) (initState [])) :=
  claim_C5 progC5 1 [] (by decide) (initState [])
    (forceOk (schedPass progC5 1 (initState [])) (initState []))
    (by intro c; cases c <;> exact ⟨by decide, by decide, by decide⟩) (by rfl)

/-- Program for C7: r and b wait on alpha, g pushes 1 and 2 and sends
both with pusha; the wait queue becomes [r, b] with r suspended first. -/
def progC7 : Color → List Nat
  | Color.r => [224, 192, 188, 188, 188]
  | Color.g => [1, 2, 220, 220, 192]
  | Color.b => [224, 192, 188, 188, 188]

/-- C7 counterexample: after three passes r and b are both AWAIT with
wait queue [r, b]; within the single fourth pass r (the head) resumes
and consumes, g's pusha refills alpha, and b — which was NOT the head at
the start of the pass — also resumes and consumes: two channels consume
via the AWAIT resumption path in one pass. -/
theorem cex_C7 :
    okCheck (passN progC7 5 3 (initState []))
      (fun s3 => decide (s3.tstate Color.r = TState.await) &&
        decide (s3.tstate Color.b = TState.await) &&
        decide (s3.waitq = [Color.r, Color.b]) &&
        okCheck (schedPass progC7 5 s3)
          (fun s4 => decide (s4.gConsume Color.r = s3.gConsume Color.r + 1) &&
            decide (s4.gConsume Color.b = s3.gConsume Color.b + 1))) = true := by rfl

/-- C7 amended: a channel in AWAIT consumes from the alpha stack during
its slot only when, at the moment the slot is serviced, it is the head
of the wait queue and the alpha stack is nonempty; since the head is
dequeued on resumption, a later-ordered channel can become head and also
consume in the same pass (so more than one consumption per pass is
possible, but never by a channel that was not head at its own slot). -/
theorem claim_C7 (code : Color → List Nat) (size : Nat) (c : Color)
    (s s' : VMState) (hawait : s.tstate c = TState.await)
    (h : slot code size c s = Except.ok s')
    (hchange : s'.gConsume c ≠ s.gConsume c) :
    s.waitq.head? = some c ∧ s.astack ≠ [] := by
  unfold slot at h
  rw [if_neg (by simp [hawait])] at h
  rcases hpg : pyGet (code c) (s.ip c) with e | bv
  · rw [hpg] at h; cases h
  · rw [hpg] at h
    simp only [] at h
    rw [if_neg (by simp [hawait]), if_pos hawait] at h
    rcases hq : s.waitq with _ | ⟨q0, t⟩
    · rw [hq] at h; cases h
    · rw [hq] at h
      simp only [] at h
      by_cases hqc : q0 = c
      · rw [if_pos hqc] at h
        by_cases ha : (bumpHead s c).astack = []
        · rw [if_pos ha] at h
          injection h with h
          subst h
          exact absurd rfl hchange
        · rw [if_neg ha] at h
          subst hqc
          refine ⟨rfl, fun hcon => ha hcon⟩
      · rw [if_neg hqc] at h
        injection h with h
        subst h
        exact absurd rfl hchange

/-- State for the C7 witness: g is AWAIT at the head of the wait queue
with a value on alpha; its slot resumes it, so consumption happened and
the theorem's conclusion is checked at this instance. -/
def stC7 : VMState :=
  { initState [] with
      tstate := updC (fun _ => TState.halted) Color.g TState.await
      waitq := [Color.g]
      astack := [7] }

theorem wit_C7 :
    stC7.waitq.head? = some Color.g ∧ stC7.astack ≠ [] :=
  claim_C7 (fun _ => [224]) 1 Color.g stC7
    (forceOk (slot (fun _ => [224]) 1 Color.g stC7) stC7)
    (by rfl) (by rfl) (by decide)

/-- Program for C6: channel r holds the unassigned high byte 0x81 at the
last (only) program index; g and b halt. -/
def progC6 : Color → List Nat
  | Color.r => [129]
  | _ => [192]

/-- C6 counterexample: the invalid byte 129 at the last program index
first sends r to HALTED inside colorexec, but the scheduler's
unconditional ip increment then reaches size and overwrites the state
with OVERRUN, so the thread does NOT end HALTED at the last index. -/
theorem cex_C6 :
    okCheck (schedPass progC6 1 (initState []))
      (fun s => decide (s.tstate Color.r = TState.overrun) &&
        !(decide (s.tstate Color.r = TState.halted)) &&
        decide (s.ip Color.r = 1)) = true := by rfl

/-- C6 amended: executing a byte that is neither a literal (0..127) nor
one of the 28 assigned opcodes emits a message and sends the thread to
HALTED — except at the last program index, where the scheduler's
increment-and-check immediately overwrites the state with OVERRUN; in
both cases the stack is untouched, ip advances by one, and the other
threads' states, stacks and ips are unaffected by the slot. -/
theorem claim_C6 (code : Color → List Nat) (size : Nat) (c : Color) (s : VMState)
    (bv : Nat) (hrun : s.tstate c = TState.running)
    (hpg : pyGet (code c) (s.ip c) = Except.ok bv)
    (h128 : 128 ≤ bv) (hnone : disasm bv = none) :
    ∃ s', slot code size c s = Except.ok s' ∧
      (s.ip c + 1 ≠ (size : Int) → s'.tstate c = TState.halted) ∧
      (s.ip c + 1 = (size : Int) → s'.tstate c = TState.overrun) ∧
      s'.ip c = s.ip c + 1 ∧ s'.stack c = s.stack c ∧
      ∀ d, d ≠ c → s'.tstate d = s.tstate d ∧ s'.stack d = s.stack d ∧
        s'.ip d = s.ip d := by
  have hnop : bv ≠ 188 := fun hx => by subst hx; simp [disasm] at hnone
  have hhalt : bv ≠ 192 := fun hx => by subst hx; simp [disasm] at hnone
  rw [slot_run_exec hrun hpg hnop hhalt, colorexec_invalid hpg h128 hnone]
  refine ⟨_, rfl, ?_, ?_, ?_, ?_, ?_⟩
  · intro hne
    show (advance size c { s with tstate := updC s.tstate c TState.halted }).tstate c =
      TState.halted
    simp [advance, updC, hne]
  · intro heq
    show (advance size c { s with tstate := updC s.tstate c TState.halted }).tstate c =
      TState.overrun
    simp [advance, updC, heq]
  · rw [advance_ip_self]
  · show (advance size c { s with tstate := updC s.tstate c TState.halted }).stack c =
      s.stack c
    rw [advance_stack]
  · intro d hd
    obtain ⟨hi, ht⟩ :=
      advance_other size c { s with tstate := updC s.tstate c TState.halted } d hd
    refine ⟨?_, ?_, ?_⟩
    · rw [ht]
      show updC s.tstate c TState.halted d = s.tstate d
      simp [updC, hd]
    · rw [advance_stack]
    · rw [hi]

theorem wit_C6 :
    ∃ s', slot progC6 1 Color.r (initState []) = Except.ok s' ∧
      ((initState []).ip Color.r + 1 ≠ ((1 : Nat) : Int) →
        s'.tstate Color.r = TState.halted) ∧
      ((initState []).ip Color.r + 1 = ((1 : Nat) : Int) →
        s'.tstate Color.r = TState.overrun) ∧
      s'.ip Color.r = (initState []).ip Color.r + 1 ∧
      s'.stack Color.r = (initState []).stack Color.r ∧
      ∀ d, d ≠ Color.r → s'.tstate d = (initState []).tstate d ∧
        s'.stack d = (initState []).stack d ∧ s'.ip d = (initState []).ip d :=
  claim_C6 progC6 1 Color.r (initState []) 129 (by rfl) (by rfl)
    (by decide) (by rfl)

/-- C8: jmpz (0xC4) pops v then addr; when v = 0 and addr is a valid
program index, the ip after the scheduler's unconditional increment is
exactly addr (the thread state is untouched); when v = 0 and addr is out
of range, the ip is set to size - 1 inside colorexec, so the increment
brings it to size and the thread transitions to OVERRUN; when v is
nonzero the ip simply advances by one. -/
theorem claim_C8 (code : Color → List Nat) (size : Nat) (c : Color) (s : VMState)
    (v addr : Int) (rest : List Int) (hrun : s.tstate c = TState.running)
    (hpg : pyGet (code c) (s.ip c) = Except.ok 196)
    (hstk : s.stack c = v :: addr :: rest) :
    ∃ s', slot code size c s = Except.ok s' ∧
      (v = 0 → 0 ≤ addr ∧ addr < (size : Int) →
        s'.ip c = addr ∧ s'.tstate c = s.tstate c) ∧
      (v = 0 → ¬(0 ≤ addr ∧ addr < (size : Int)) →
        s'.ip c = (size : Int) ∧ s'.tstate c = TState.overrun) ∧
      (v ≠ 0 → s'.ip c = s.ip c + 1) := by
  rw [slot_run_exec hrun hpg (by decide) (by decide)]
  by_cases hv : v = 0
  · by_cases hr : 0 ≤ addr ∧ addr < (size : Int)
    · have hce : colorexec code size c s = Except.ok (bumpStat1
          { setStack s c rest with ip := updC (setStack s c rest).ip c (addr - 1) }
          c OpName.jmpz) := by
        unfold colorexec
        rw [hpg]
        norm_num
        rw [hstk]
        simp [hv, hr]
      rw [hce]
      refine ⟨_, rfl, ?_, ?_, ?_⟩
      · intro _ _
        constructor
        · rw [advance_ip_self]
          show updC (setStack s c rest).ip c (addr - 1) c + 1 = addr
          simp [updC]
        · have hne : (bumpStat1 { setStack s c rest with
              ip := updC (setStack s c rest).ip c (addr - 1) } c OpName.jmpz).ip c + 1 ≠
              (size : Int) := by
            show updC (setStack s c rest).ip c (addr - 1) c + 1 ≠ (size : Int)
            simp [updC]
            omega
          show (advance size c _).tstate c = s.tstate c
          simp [advance, hne]
          rfl
      · intro _ hcon
        exact absurd hr hcon
      · intro hcon
        exact absurd hv hcon
    · have hce : colorexec code size c s = Except.ok (bumpStat1
          { setStack s c rest with
              ip := updC (setStack s c rest).ip c ((size : Int) - 1) }
          c OpName.jmpz) := by
        unfold colorexec
        rw [hpg]
        norm_num
        rw [hstk]
        simp [hv, hr]
      rw [hce]
      refine ⟨_, rfl, ?_, ?_, ?_⟩
      · intro _ hcon
        exact absurd hcon hr
      · intro _ _
        have hz : (bumpStat1 { setStack s c rest with
            ip := updC (setStack s c rest).ip c ((size : Int) - 1) } c OpName.jmpz).ip c + 1 =
            (size : Int) := by
          show updC (setStack s c rest).ip c ((size : Int) - 1) c + 1 = (size : Int)
          simp [updC]
        constructor
        · rw [advance_ip_self]
          exact hz
        · show (advance size c _).tstate c = TState.overrun
          simp [advance, hz, updC]
      · intro hcon
        exact absurd hv hcon
  · have hce : colorexec code size c s =
        Except.ok (bumpStat1 (setStack s c rest) c OpName.jmpz) := by
      unfold colorexec
      rw [hpg]
      norm_num
      rw [hstk]
      simp [hv]
    rw [hce]
    refine ⟨_, rfl, ?_, ?_, ?_⟩
    · intro hcon
      exact absurd hcon hv
    · intro hcon
      exact absurd hcon hv
    · intro _
      rw [advance_ip_self]
      rfl

/-- State for the C8 witness: channel r runs jmpz with v = 0, addr = 1
on a program of size 2, so the jump lands on index 1. -/
def stC8 : VMState :=
  { initState [] with stack := updC (fun _ => []) Color.r [0, 1] }

theorem wit_C8 :
    ∃ s', slot (fun _ => [196, 188]) 2 Color.r stC8 = Except.ok s' ∧
      ((0 : Int) = 0 → (0 : Int) ≤ 1 ∧ (1 : Int) < ((2 : Nat) : Int) →
        s'.ip Color.r = 1 ∧ s'.tstate Color.r = stC8.tstate Color.r) ∧
      ((0 : Int) = 0 → ¬((0 : Int) ≤ 1 ∧ (1 : Int) < ((2 : Nat) : Int)) →
        s'.ip Color.r = ((2 : Nat) : Int) ∧ s'.tstate Color.r = TState.overrun) ∧
      ((0 : Int) ≠ 0 → s'.ip Color.r = stC8.ip Color.r + 1) :=
  claim_C8 (fun _ => [196, 188]) 2 Color.r stC8 0 1 [] (by rfl) (by rfl) (by rfl)

/-- C9 counterexample: `cexImage` declares version 1.0, cellsize 1 and
size 7, so the walk starts at (2, 0) of a 2-by-2 image and leaves the
bounds at once: the decoder fails with the uncaught IndexError of
`getpixel`, not with the spec's ImageTooSmall. -/
theorem cex_C9 : decode cexImage = Except.error DecodeErr.indexError := by rfl

/-- C9 amended: when the cell walk exits the image bounds the decoder
does fail, but with the uncaught IndexError raised by the pixel read;
no code path of the source produces an ImageTooSmall error (the name
exists only in the specification): for every image, the decoder's result
is never ImageTooSmall. -/
theorem claim_C9 (img : PImage) : isImageTooSmall (decode img) = false := by
  unfold decode
  rcases h0 : getpixel img 0 0 with e | trip
  · have he := getpixel_err h0
    subst he
    rfl
  · obtain ⟨majorver, minorver, cellsize⟩ := trip
    simp only []
    by_cases hv : V_MAJOR < majorver ∨ (majorver = V_MAJOR ∧ V_MINOR < minorver)
    · rw [if_pos hv]
      rfl
    · rw [if_neg hv]
      rcases h1 : (if img.width = cellsize then getpixel img 0 cellsize
          else getpixel img cellsize 0) with e | trip2
      · have he : e = DecodeErr.indexError := by
          by_cases hw : img.width = cellsize
          · rw [if_pos hw] at h1
            exact getpixel_err h1
          · rw [if_neg hw] at h1
            exact getpixel_err h1
        subst he
        rfl
      · obtain ⟨s3, s2, s1⟩ := trip2
        simp only []
        by_cases hz : s3 * 65536 + s2 * 256 + s1 = 0
        · rw [if_pos hz]
          rfl
        · rw [if_neg hz]
          exact pwalk_not_toosmall img cellsize _ _ _

/-- C10: the inc opcode (0xD0) indexes the first character of the input
line unconditionally: on a nonempty line its code point is pushed and the
line is consumed; on an empty line the access `char[0]` is out of bounds
and the embedded step takes the error branch (an uncaught IndexError)
instead of pushing anything. -/
theorem claim_C10 (code : Color → List Nat) (size : Nat) (c : Color) (s : VMState)
    (hrun : s.tstate c = TState.running)
    (hpg : pyGet (code c) (s.ip c) = Except.ok 208) :
    (∀ restIn, s.input = [] :: restIn →
      slot code size c s = Except.error VMErr.indexError) ∧
    (∀ ch line restIn, s.input = (ch :: line) :: restIn →
      ∃ s', slot code size c s = Except.ok s' ∧
        s'.stack c = (ch : Int) :: s.stack c ∧ s'.input = restIn ∧
        s'.stat c OpName.inc = s.stat c OpName.inc + 1) := by
  constructor
  · intro restIn hin
    rw [slot_run_exec hrun hpg (by decide) (by decide)]
    unfold colorexec
    rw [hpg]
    norm_num
    rw [hin]
  · intro ch line restIn hin
    rw [slot_run_exec hrun hpg (by decide) (by decide)]
    unfold colorexec
    rw [hpg]
    norm_num
    rw [hin]
    simp only []
    refine ⟨_, rfl, ?_, ?_, ?_⟩
    · show (advance size c _).stack c = (ch : Int) :: s.stack c
      rw [advance_stack]
      show updC s.stack c ((ch : Int) :: s.stack c) c = (ch : Int) :: s.stack c
      simp [updC]
    · show (advance size c _).input = restIn
      have hai : ∀ s1 : VMState, (advance size c s1).input = s1.input := by
        intro s1
        by_cases hz : s1.ip c + 1 = (size : Int) <;> simp [advance, hz]
      rw [hai]
      rfl
    · rw [advance_stat]
      show bumpStatF _ c OpName.inc c OpName.inc = s.stat c OpName.inc + 1
      simp [bumpStatF, pushV, setStack]

theorem wit_C10 :
    slot (fun _ => [208]) 1 Color.r (initState [[]]) =
      Except.error VMErr.indexError :=
  (claim_C10 (fun _ => [208]) 1 Color.r (initState [[]])
    (by rfl) (by rfl)).1 [] rfl

/-- Program for C4's counterexample: channel r pushes 5 and executes rot
on the singleton stack [5]. -/
def progC4 : Color → List Nat
  | Color.r => [5, 160, 192]
  | _ => [188, 188, 192]

/-- C4 counterexample: rot's declared arity is 1 + n; with stack [5] the
depth 1 is below the arity 6, yet the execution is NOT a silent no-op on
the stack: the count 5 is popped and lost, leaving the stack empty (the
rot counter is still incremented and the thread continues). -/
theorem cex_C4 :
    okCheck (run progC4 3 10 (initState []))
      (fun s => decide (s.stack Color.r = []) &&
        !(decide (s.stack Color.r = [5])) &&
        decide (s.stat Color.r OpName.rot = 1) &&
        decide (s.tstate Color.r = TState.halted)) = true := by rfl

/-- Opcode bytes executed by colorexec with declared arity 2. -/
def staticArityBytes2 : List Nat :=
  [128, 132, 136, 140, 144, 152, 168, 172, 176, 180, 184, 196, 200, 232, 236]

/-- Opcode bytes executed by colorexec with declared arity 1. -/
def staticArityBytes1 : List Nat :=
  [148, 156, 164, 204, 212, 220, 228]

set_option maxHeartbeats 4000000 in
/-- C4 amended: for every opcode with a fixed declared arity (that is,
all stack-consuming opcodes except rot), executing it on a stack whose
depth is below the arity leaves the stack unchanged, still increments the
per-channel counter of that opcode, and ip still advances by one. For
rot the original claim fails: on a nonempty stack whose remaining depth
is below the popped count, the count itself is consumed (see the
counterexample); rot on an empty stack is a full no-op. -/
theorem claim_C4 (code : Color → List Nat) (size : Nat) (c : Color) (s : VMState)
    (bv : Nat) (o : OpName) (hrun : s.tstate c = TState.running)
    (hpg : pyGet (code c) (s.ip c) = Except.ok bv)
    (ho : disasm bv = some o)
    (hmem : (bv ∈ staticArityBytes2 ∧ (s.stack c).length < 2) ∨
      (bv ∈ staticArityBytes1 ∧ (s.stack c).length < 1)) :
    ∃ s', slot code size c s = Except.ok s' ∧ s'.stack c = s.stack c ∧
      s'.stat c o = s.stat c o + 1 ∧ s'.ip c = s.ip c + 1 := by
  rcases hmem with ⟨hmem, hlt⟩ | ⟨hmem, hlt⟩ <;> fin_cases hmem <;>
    · simp only [disasm, Option.some.injEq] at ho
      rcases hstk : s.stack c with _ | ⟨a, _ | ⟨b2, rest⟩⟩ <;>
        first
        | (exfalso
           rw [hstk] at hlt
           simp only [List.length_cons, List.length_nil] at hlt
           omega)
        | (have hce : colorexec code size c s = Except.ok (bumpStat1 s c o) := by
             rw [← ho]
             unfold colorexec
             rw [hpg]
             norm_num
             rw [hstk]
             try simp
             try rfl
           rw [slot_run_exec hrun hpg (by decide) (by decide), hce]
           refine ⟨_, rfl, ?_, ?_, ?_⟩
           · rw [advance_stack]
             exact hstk
           · rw [advance_stat]
             simp [bumpStat1, bumpStatF]
           · rw [advance_ip_self]
             try rfl)

/-- State for the C4 witness: channel r faces an `add` with the single
element stack [3] (depth 1 below arity 2). -/
def stC4 : VMState :=
  { initState [] with stack := updC (fun _ => []) Color.r [3] }

theorem wit_C4 :
    ∃ s', slot (fun _ => [128]) 1 Color.r stC4 = Except.ok s' ∧
      s'.stack Color.r = stC4.stack Color.r ∧
      s'.stat Color.r OpName.add = stC4.stat Color.r OpName.add + 1 ∧
      s'.ip Color.r = stC4.ip Color.r + 1 :=
  claim_C4 (fun _ => [128]) 1 Color.r stC4 128 OpName.add (by rfl) (by rfl)
    (by rfl) (Or.inl ⟨by decide, by decide⟩)
